import Mathlib

/-!
Verification of the webhook-handling core of a WhatsApp Business API
wrapper (`WebhookHandler` in the TypeScript source): HMAC-SHA256
signature validation (`validateSignature`), the subscription handshake
check (`verifyWebhook`), and first-event extraction from notification
envelopes (`getFirstMessage`, `getFirstStatus`).

Byte strings are modelled as `List Nat` with every element `< 256`;
JavaScript runtime values (the envelopes and query objects, which are
`any`-typed in the source) are modelled by the inductive `JsValue`, with
property access made explicit in the `Except` monad so that a JavaScript
`TypeError` is an `Except.error`.
-/

namespace WhatsAppWebhook

/-! ## SHA-256 (FIPS 180-4) over byte lists

`crypto.createHmac('sha256', secret).update(payload).digest('hex')` in the
source is Node's HMAC-SHA256; we implement the standard algorithm here so
that the signature check is fully executable. 32-bit words are `Nat`
taken modulo `2 ^ 32`. -/

def w32 (n : Nat) : Nat := n % 4294967296

def add32 (a b : Nat) : Nat := (a + b) % 4294967296

def rotr32 (x r : Nat) : Nat := w32 ((x >>> r) ||| (x <<< (32 - r)))

/-- Bitwise complement inside 32 bits (valid for `x < 2 ^ 32`). -/
def not32 (x : Nat) : Nat := 4294967295 - x

def ch32 (x y z : Nat) : Nat := (x &&& y) ^^^ (not32 x &&& z)

def maj32 (x y z : Nat) : Nat := (x &&& y) ^^^ (x &&& z) ^^^ (y &&& z)

def bsig0 (x : Nat) : Nat := rotr32 x 2 ^^^ rotr32 x 13 ^^^ rotr32 x 22

def bsig1 (x : Nat) : Nat := rotr32 x 6 ^^^ rotr32 x 11 ^^^ rotr32 x 25

def ssig0 (x : Nat) : Nat := rotr32 x 7 ^^^ rotr32 x 18 ^^^ (x >>> 3)

def ssig1 (x : Nat) : Nat := rotr32 x 17 ^^^ rotr32 x 19 ^^^ (x >>> 10)

def sha256K : List Nat :=
  [1116352408, 1899447441, 3049323471, 3921009573, 961987163,
   1508970993, 2453635748, 2870763221, 3624381080, 310598401,
   607225278, 1426881987, 1925078388, 2162078206, 2614888103,
   3248222580, 3835390401, 4022224774, 264347078, 604807628,
   770255983, 1249150122, 1555081692, 1996064986, 2554220882,
   2821834349, 2952996808, 3210313671, 3336571891, 3584528711,
   113926993, 338241895, 666307205, 773529912, 1294757372,
   1396182291, 1695183700, 1986661051, 2177026350, 2456956037,
   2730485921, 2820302411, 3259730800, 3345764771, 3516065817,
   3600352804, 4094571909, 275423344, 430227734, 506948616,
   659060556, 883997877, 958139571, 1322822218, 1537002063,
   1747873779, 1955562222, 2024104815, 2227730452, 2361852424,
   2428436474, 2756734187, 3204031479, 3329325298]

def sha256H0 : List Nat :=
  [1779033703, 3144134277, 1013904242, 2773480762, 1359893119,
   2600822924, 528734635, 1541459225]

/-- The big-endian 8-byte rendering of a 64-bit length field. -/
def be64 (n : Nat) : List Nat :=
  [(n >>> 56) % 256, (n >>> 48) % 256, (n >>> 40) % 256, (n >>> 32) % 256,
   (n >>> 24) % 256, (n >>> 16) % 256, (n >>> 8) % 256, n % 256]

/-- The big-endian 4-byte rendering of a 32-bit word. -/
def be32 (word : Nat) : List Nat :=
  [(word >>> 24) % 256, (word >>> 16) % 256, (word >>> 8) % 256, word % 256]

/-- Padding for SHA-256: append `0x80`, zeros to 56 mod 64, then the bit length. -/
def padMessage (m : List Nat) : List Nat :=
  m ++ 0x80 :: List.replicate ((119 - m.length % 64) % 64) 0 ++ be64 (8 * m.length)

/-- Group bytes four at a time into big-endian 32-bit words. -/
def bytesToWords : List Nat → List Nat
  | b0 :: b1 :: b2 :: b3 :: rest =>
      (((b0 * 256 + b1) * 256 + b2) * 256 + b3) :: bytesToWords rest
  | _ => []

/-- Split a byte list into 64-byte blocks (structural recursion on a fuel
counter so that the kernel can evaluate it; `fuel = l.length` always
suffices because each step drops at least one element). -/
def chunkAux : Nat → List Nat → List (List Nat)
  | 0, _ => []
  | _, [] => []
  | fuel + 1, b :: bs => ((b :: bs).take 64) :: chunkAux fuel ((b :: bs).drop 64)

/-- Split a byte list into 64-byte blocks. -/
def chunk64 (l : List Nat) : List (List Nat) := chunkAux l.length l

/-- One step of the message-schedule extension: append `w_t` computed from
`w_(t-2)`, `w_(t-7)`, `w_(t-15)`, `w_(t-16)`. -/
def scheduleStep (ws : List Nat) : List Nat :=
  ws ++ [(ssig1 (ws.getD (ws.length - 2) 0) + ws.getD (ws.length - 7) 0 +
          ssig0 (ws.getD (ws.length - 15) 0) + ws.getD (ws.length - 16) 0) % 4294967296]

def iterateSteps : Nat → List Nat → List Nat
  | 0, ws => ws
  | n + 1, ws => iterateSteps n (scheduleStep ws)

/-- The 64-entry message schedule of a 16-word block. -/
def schedule (block : List Nat) : List Nat := iterateSteps 48 block

/-- One SHA-256 compression round; the state is the 8-word list
`[a, b, c, d, e, f, g, h]`. -/
def sha256Round (st : List Nat) (kw : Nat × Nat) : List Nat :=
  let a := st.getD 0 0
  let b := st.getD 1 0
  let c := st.getD 2 0
  let d := st.getD 3 0
  let e := st.getD 4 0
  let f := st.getD 5 0
  let g := st.getD 6 0
  let h := st.getD 7 0
  let t1 := (h + bsig1 e + ch32 e f g + kw.1 + kw.2) % 4294967296
  let t2 := (bsig0 a + maj32 a b c) % 4294967296
  [(t1 + t2) % 4294967296, a, b, c, (d + t1) % 4294967296, e, f, g]

/-- Compress one 16-word block into the running state. -/
def compress (st : List Nat) (block : List Nat) : List Nat :=
  List.zipWith add32 st ((sha256K.zip (schedule block)).foldl sha256Round st)

/-- The SHA-256 digest of a byte list, as its 32 digest bytes. -/
def sha256 (m : List Nat) : List Nat :=
  (((chunk64 (padMessage m)).foldl (fun st b => compress st (bytesToWords b)) sha256H0).map
    be32).flatten

/-- The HMAC-SHA256 (RFC 2104) of a message under a key, as 32 digest bytes. -/
def hmacSha256 (key msg : List Nat) : List Nat :=
  let k0 := if 64 < key.length then sha256 key else key
  let kp := k0 ++ List.replicate (64 - k0.length) 0
  sha256 ((kp.map fun b => b ^^^ 0x5c) ++ sha256 ((kp.map fun b => b ^^^ 0x36) ++ msg))

/-! ## Lowercase hexadecimal rendering (Node `digest('hex')`) -/

def hexAlphabet : List Char := "0123456789abcdef".toList

def hexDigitChar (n : Nat) : Char := hexAlphabet.getD n 'f'

def byteToHex (b : Nat) : List Char := [hexDigitChar (b / 16), hexDigitChar (b % 16)]

/-- Lowercase hex rendering of a byte list, as a character list. -/
def bytesToHex (bs : List Nat) : List Char := (bs.map byteToHex).flatten

/-- The uppercase hexadecimal alphabet (what the claim about case
sensitivity renders digests with; the code itself only produces
lowercase). -/
def hexUpperAlphabet : List Char := "0123456789ABCDEF".toList

def hexUpperDigitChar (n : Nat) : Char := hexUpperAlphabet.getD n 'F'

def byteToHexUpper (b : Nat) : List Char :=
  [hexUpperDigitChar (b / 16), hexUpperDigitChar (b % 16)]

/-- Uppercase hex rendering of a byte list. -/
def bytesToHexUpper (bs : List Nat) : List Char := (bs.map byteToHexUpper).flatten

/-- A hexadecimal digit character: `0`-`9`, `a`-`f` or `A`-`F`. -/
def isHexDigitChar (c : Char) : Bool :=
  (48 ≤ c.toNat && c.toNat ≤ 57) || (97 ≤ c.toNat && c.toNat ≤ 102) ||
    (65 ≤ c.toNat && c.toNat ≤ 70)

/-! ## JavaScript strings and buffers

`String.prototype.split` with a single-character separator, and
`Buffer.from(string)` (UTF-8 encoding), as used by `validateSignature`. -/

/-- The worker of the split: `jsSplitAux sep rest acc` walks `rest` keeping the current (reversed)
segment in `acc`; mirrors `rest.split(sep)` semantics of JavaScript
(`''.split('=') = ['']`, separators at the ends yield empty segments). -/
def jsSplitAux (sep : Char) : List Char → List Char → List (List Char)
  | [], acc => [acc.reverse]
  | c :: cs, acc =>
      if c = sep then acc.reverse :: jsSplitAux sep cs []
      else jsSplitAux sep cs (c :: acc)

/-- JavaScript split for a one-character separator, as in `s.split(sep)`. -/
def jsSplit (sep : Char) (s : List Char) : List (List Char) := jsSplitAux sep s []

/-- The UTF-8 encoding of one character (by code point). -/
def charUtf8 (c : Char) : List Nat :=
  if c.toNat < 128 then [c.toNat]
  else if c.toNat < 2048 then [192 + c.toNat / 64, 128 + c.toNat % 64]
  else if c.toNat < 65536 then
    [224 + c.toNat / 4096, 128 + c.toNat / 64 % 64, 128 + c.toNat % 64]
  else
    [240 + c.toNat / 262144, 128 + c.toNat / 4096 % 64, 128 + c.toNat / 64 % 64,
     128 + c.toNat % 64]

/-- The bytes `Buffer.from` yields for a character list: its UTF-8 bytes. -/
def utf8Bytes (s : List Char) : List Nat := (s.map charUtf8).flatten

/-! ## JavaScript runtime values

The envelopes and query objects handled by `WebhookHandler` are `any`-typed
in the source; `JsValue` models the JavaScript values that can reach them.
Property and index access are explicit `Except` computations: reading a
property of `undefined` or `null` is a thrown `TypeError`, every other
access yields a value (`undefined` when the property is missing). -/

inductive JsValue : Type where
  | undefined : JsValue
  | null : JsValue
  | bool : Bool → JsValue
  | num : Int → JsValue
  | str : String → JsValue
  | arr : List JsValue → JsValue
  | obj : List (String × JsValue) → JsValue

/-- Field lookup in an object, `undefined` when absent. -/
def objLookup (fields : List (String × JsValue)) (k : String) : JsValue :=
  match fields.find? (fun p => p.1 == k) with
  | some p => p.2
  | none => .undefined

/-- JavaScript property read `v[k]` for a string key: throws (`.error`) on
`undefined`/`null`, looks up the field on objects, and yields `undefined`
on every other (boxed) value. -/
def getProp : JsValue → String → Except String JsValue
  | .undefined, _ => .error "TypeError"
  | .null, _ => .error "TypeError"
  | .obj fields, k => .ok (objLookup fields k)
  | _, _ => .ok .undefined

/-- JavaScript index read `v[i]`: throws on `undefined`/`null`, indexes
arrays (`undefined` past the end), indexes strings by character, and yields
`undefined` on every other value. -/
def getIndex : JsValue → Nat → Except String JsValue
  | .undefined, _ => .error "TypeError"
  | .null, _ => .error "TypeError"
  | .arr elems, i => .ok (elems.getD i .undefined)
  | .str s, i =>
      .ok (if i < s.length then .str (String.mk [s.toList.getD i 'a']) else .undefined)
  | _, _ => .ok .undefined

/-- JavaScript truthiness (`NaN` is not modelled; numbers are integers). -/
def truthy : JsValue → Bool
  | .undefined => false
  | .null => false
  | .bool b => b
  | .num n => n != 0
  | .str s => s != ""
  | .arr _ => true
  | .obj _ => true

/-- JavaScript strict equality `v === lit` against a string literal. -/
def strictEqStr : JsValue → String → Bool
  | .str a, b => a == b
  | _, _ => false

/-! ## The `WebhookHandler` operations -/

/-- The handshake check `WebhookHandler.verifyWebhook(query, verifyToken)`: reads
`query['hub.mode']`, `query['hub.verify_token']`, `query['hub.challenge']`;
if mode and token are both truthy, and mode is `'subscribe'` and the token
strictly equals `verifyToken`, returns the challenge; otherwise `null`. -/
def verifyWebhook (query : JsValue) (verifyToken : String) : Except String JsValue := do
  let mode ← getProp query "hub.mode"
  let token ← getProp query "hub.verify_token"
  let challenge ← getProp query "hub.challenge"
  if truthy mode && truthy token then
    if strictEqStr mode "subscribe" && strictEqStr token verifyToken then
      return challenge
    else
      return JsValue.null
  else
    return JsValue.null

/-- The comparison primitive `crypto.timingSafeEqual(a, b)`: throws a `RangeError` when the buffers
differ in length, otherwise decides byte equality. -/
def timingSafeEqual (a b : List Nat) : Except String Bool :=
  if a.length = b.length then .ok (a == b) else .error "RangeError"

/-- The signature check `WebhookHandler.validateSignature(payload, signature, appSecret)`.
`payload` and `appSecret` are byte lists (a string argument stands for its
UTF-8 bytes, which is what `crypto.createHmac`/`update` consume);
`signature` is the header string. Mirrors the source: falsy-header check,
split on `'='` into exactly two parts, HMAC-SHA256 hex digest, length
check, then `timingSafeEqual` on the two `Buffer.from` byte renderings. -/
def validateSignature (payload : List Nat) (signature : String) (appSecret : List Nat) :
    Except String Bool :=
  if signature = "" then .ok false
  else
    let parts := jsSplit '=' signature.toList
    if parts.length ≠ 2 then .ok false
    else
      let sigHash := parts.getD 1 []
      let digest := bytesToHex (hmacSha256 appSecret payload)
      let digestRead := utf8Bytes digest
      let sigRead := utf8Bytes sigHash
      if digestRead.length ≠ sigRead.length then .ok false
      else timingSafeEqual digestRead sigRead

/-- The extraction helper `WebhookHandler.getFirstMessage(payload)`: the guarded descent
`payload.entry && payload.entry[0].changes && payload.entry[0].changes[0]
.value.messages && payload.entry[0].changes[0].value.messages[0]`, returning
the first message when every conjunct is truthy and `null` otherwise; each
property read can throw (&& short-circuits left to right). -/
def getFirstMessage (payload : JsValue) : Except String JsValue := do
  let entry ← getProp payload "entry"
  if truthy entry then
    let e0 ← getIndex entry 0
    let changes ← getProp e0 "changes"
    if truthy changes then
      let c0 ← getIndex changes 0
      let value ← getProp c0 "value"
      let messages ← getProp value "messages"
      if truthy messages then
        let m0 ← getIndex messages 0
        if truthy m0 then
          return m0
        else
          return JsValue.null
      else
        return JsValue.null
    else
      return JsValue.null
  else
    return JsValue.null

/-- The extraction helper `WebhookHandler.getFirstStatus(payload)`: the same guarded descent
through `...value.statuses[0]`. -/
def getFirstStatus (payload : JsValue) : Except String JsValue := do
  let entry ← getProp payload "entry"
  if truthy entry then
    let e0 ← getIndex entry 0
    let changes ← getProp e0 "changes"
    if truthy changes then
      let c0 ← getIndex changes 0
      let value ← getProp c0 "value"
      let statuses ← getProp value "statuses"
      if truthy statuses then
        let s0 ← getIndex statuses 0
        if truthy s0 then
          return s0
        else
          return JsValue.null
      else
        return JsValue.null
    else
      return JsValue.null
  else
    return JsValue.null

/-! ## Lemmas: JavaScript `split` -/

theorem jsSplitAux_sep_free (sep : Char) (l acc : List Char) (h : sep ∉ l) :
    jsSplitAux sep l acc = [acc.reverse ++ l] := by
  induction l generalizing acc with
  | nil => simp [jsSplitAux]
  | cons c cs ih =>
    have hc : c ≠ sep := fun hc => h (hc ▸ List.mem_cons_self c cs)
    have hcs : sep ∉ cs := fun hm => h (List.mem_cons_of_mem c hm)
    simp [jsSplitAux, hc, ih (c :: acc) hcs]

theorem jsSplitAux_append (sep : Char) (l₁ l₂ acc : List Char) (h : sep ∉ l₁) :
    jsSplitAux sep (l₁ ++ sep :: l₂) acc = (acc.reverse ++ l₁) :: jsSplit sep l₂ := by
  induction l₁ generalizing acc with
  | nil => simp [jsSplitAux, jsSplit]
  | cons c cs ih =>
    have hc : c ≠ sep := fun hc => h (hc ▸ List.mem_cons_self c cs)
    have hcs : sep ∉ cs := fun hm => h (List.mem_cons_of_mem c hm)
    simp [jsSplitAux, hc, ih (c :: acc) hcs]

/-- Splitting a string with exactly one separator occurrence yields the two
surrounding segments. -/
theorem jsSplit_two (sep : Char) (l₁ l₂ : List Char) (h₁ : sep ∉ l₁) (h₂ : sep ∉ l₂) :
    jsSplit sep (l₁ ++ sep :: l₂) = [l₁, l₂] := by
  simp [jsSplit, jsSplitAux_append sep l₁ l₂ [] h₁, jsSplitAux_sep_free sep l₂ [] h₂]

/-! ## Lemmas: hex renderings -/

theorem hexDigitChar_spec (n : Nat) :
    (48 ≤ (hexDigitChar n).toNat ∧ (hexDigitChar n).toNat ≤ 57) ∨
      (97 ≤ (hexDigitChar n).toNat ∧ (hexDigitChar n).toNat ≤ 102) := by
  by_cases h : n < 16
  · interval_cases n <;> decide
  · have hle : hexAlphabet.length ≤ n := by
      have h16 : hexAlphabet.length = 16 := rfl
      omega
    simp [hexDigitChar, List.getD_eq_getElem?_getD, List.getElem?_eq_none hle]

theorem hexUpperDigitChar_spec (n : Nat) :
    (48 ≤ (hexUpperDigitChar n).toNat ∧ (hexUpperDigitChar n).toNat ≤ 57) ∨
      (65 ≤ (hexUpperDigitChar n).toNat ∧ (hexUpperDigitChar n).toNat ≤ 70) := by
  by_cases h : n < 16
  · interval_cases n <;> decide
  · have hle : hexUpperAlphabet.length ≤ n := by
      have h16 : hexUpperAlphabet.length = 16 := rfl
      omega
    simp [hexUpperDigitChar, List.getD_eq_getElem?_getD, List.getElem?_eq_none hle]

theorem mem_bytesToHex_spec (bs : List Nat) (c : Char) (hc : c ∈ bytesToHex bs) :
    (48 ≤ c.toNat ∧ c.toNat ≤ 57) ∨ (97 ≤ c.toNat ∧ c.toNat ≤ 102) := by
  rcases List.mem_flatten.mp hc with ⟨seg, hseg, hcs⟩
  rcases List.mem_map.mp hseg with ⟨b, _, rfl⟩
  have hcc : c = hexDigitChar (b / 16) ∨ c = hexDigitChar (b % 16) := by
    simpa [byteToHex] using hcs
  rcases hcc with rfl | rfl
  · exact hexDigitChar_spec (b / 16)
  · exact hexDigitChar_spec (b % 16)

theorem mem_bytesToHexUpper_spec (bs : List Nat) (c : Char) (hc : c ∈ bytesToHexUpper bs) :
    (48 ≤ c.toNat ∧ c.toNat ≤ 57) ∨ (65 ≤ c.toNat ∧ c.toNat ≤ 70) := by
  rcases List.mem_flatten.mp hc with ⟨seg, hseg, hcs⟩
  rcases List.mem_map.mp hseg with ⟨b, _, rfl⟩
  have hcc : c = hexUpperDigitChar (b / 16) ∨ c = hexUpperDigitChar (b % 16) := by
    simpa [byteToHexUpper] using hcs
  rcases hcc with rfl | rfl
  · exact hexUpperDigitChar_spec (b / 16)
  · exact hexUpperDigitChar_spec (b % 16)

/-- The lowercase hex rendering never contains the `=` separator. -/
theorem sep_not_mem_bytesToHex (bs : List Nat) : '=' ∉ bytesToHex bs := by
  intro h
  have := mem_bytesToHex_spec bs '=' h
  simp at this

/-- The uppercase hex rendering never contains the `=` separator. -/
theorem sep_not_mem_bytesToHexUpper (bs : List Nat) : '=' ∉ bytesToHexUpper bs := by
  intro h
  have := mem_bytesToHexUpper_spec bs '=' h
  simp at this

theorem bytesToHex_length (bs : List Nat) : (bytesToHex bs).length = 2 * bs.length := by
  induction bs with
  | nil => simp [bytesToHex]
  | cons b bs ih =>
    simp [bytesToHex, byteToHex] at ih ⊢
    omega

theorem bytesToHexUpper_length (bs : List Nat) :
    (bytesToHexUpper bs).length = 2 * bs.length := by
  induction bs with
  | nil => simp [bytesToHexUpper]
  | cons b bs ih =>
    simp [bytesToHexUpper, byteToHexUpper] at ih ⊢
    omega

/-! ## Lemmas: UTF-8 -/

theorem charUtf8_ascii (c : Char) (h : c.toNat < 128) : charUtf8 c = [c.toNat] := by
  simp [charUtf8, h]

theorem utf8Bytes_ascii (s : List Char) (h : ∀ c ∈ s, c.toNat < 128) :
    utf8Bytes s = s.map Char.toNat := by
  induction s with
  | nil => simp [utf8Bytes]
  | cons c cs ih =>
    have hc := h c (List.mem_cons_self c cs)
    have hcs : ∀ x ∈ cs, x.toNat < 128 := fun x hx => h x (List.mem_cons_of_mem c hx)
    simp [utf8Bytes, charUtf8_ascii c hc] at ih ⊢
    exact ih hcs

/-- Every character contributes a first UTF-8 byte that is either its own
(ASCII) code point or a lead byte `≥ 194`. -/
theorem charUtf8_head (c : Char) : ∃ b ∈ charUtf8 c, b = c.toNat ∨ 194 ≤ b := by
  by_cases h1 : c.toNat < 128
  · exact ⟨c.toNat, by simp [charUtf8, h1], Or.inl rfl⟩
  · by_cases h2 : c.toNat < 2048
    · refine ⟨192 + c.toNat / 64, by simp [charUtf8, h1, h2], Or.inr ?_⟩
      have : 2 ≤ c.toNat / 64 := Nat.le_div_iff_mul_le (by omega) |>.mpr (by omega)
      omega
    · by_cases h3 : c.toNat < 65536
      · exact ⟨224 + c.toNat / 4096, by simp [charUtf8, h1, h2, h3], Or.inr (by omega)⟩
      · exact ⟨240 + c.toNat / 262144, by simp [charUtf8, h1, h2, h3], Or.inr (by omega)⟩

theorem mem_utf8Bytes_of_mem (s : List Char) (c : Char) (b : Nat) (hc : c ∈ s)
    (hb : b ∈ charUtf8 c) : b ∈ utf8Bytes s := by
  exact List.mem_flatten.mpr ⟨charUtf8 c, List.mem_map.mpr ⟨c, hc, rfl⟩, hb⟩

theorem char_toNat_injective : Function.Injective Char.toNat := by
  intro a b h
  have := congrArg Char.ofNat h
  simpa [Char.ofNat_toNat] using this

/-! ## Lemmas: the signature check -/

/-- Any header `X=<correct lowercase digest>` (with `X` separator-free) is
accepted: the check never looks at the algorithm-name half. -/
theorem validateSignature_accepts (payload appSecret : List Nat) (headName : List Char)
    (h : '=' ∉ headName) :
    validateSignature payload
      (String.mk (headName ++ '=' :: bytesToHex (hmacSha256 appSecret payload))) appSecret
      = Except.ok true := by
  have hsep := sep_not_mem_bytesToHex (hmacSha256 appSecret payload)
  have hne : String.mk (headName ++ '=' :: bytesToHex (hmacSha256 appSecret payload)) ≠ "" := by
    simp [String.ext_iff]
  unfold validateSignature
  rw [if_neg hne]
  have htl : (String.mk (headName ++ '=' :: bytesToHex (hmacSha256 appSecret payload))).toList
      = headName ++ '=' :: bytesToHex (hmacSha256 appSecret payload) := rfl
  rw [htl, jsSplit_two '=' headName _ h hsep]
  simp [timingSafeEqual]

/-! ## Claim theorems -/

/-- Claim C2: for every payload `P` and secret `S`, calling
`validateSignature` with the header formed by concatenating `"sha256="` and
the lowercase hexadecimal rendering of HMAC-SHA256 of `P` under key `S`
returns `true`. -/
theorem validateSignature_accepts_correct_header (payload appSecret : List Nat) :
    validateSignature payload
      ("sha256=" ++ String.mk (bytesToHex (hmacSha256 appSecret payload))) appSecret
      = Except.ok true := by
  have hconv : "sha256=" ++ String.mk (bytesToHex (hmacSha256 appSecret payload))
      = String.mk ("sha256".toList ++ '=' :: bytesToHex (hmacSha256 appSecret payload)) := rfl
  rw [hconv]
  exact validateSignature_accepts payload appSecret "sha256".toList (by decide)

/-- Claim C6: `validateSignature` never inspects the algorithm-name half of
the header: any header `X ++ "=" ++ D`, with `X` an arbitrary string that
contains no `"="` (including the empty string) and `D` the correct
lowercase hex HMAC-SHA256 digest of the payload under the secret, is
accepted. -/
theorem validateSignature_ignores_algorithm_name (payload appSecret : List Nat)
    (algName : String) (h : '=' ∉ algName.toList) :
    validateSignature payload
      (algName ++ "=" ++ String.mk (bytesToHex (hmacSha256 appSecret payload))) appSecret
      = Except.ok true := by
  have hconv : algName ++ "=" ++ String.mk (bytesToHex (hmacSha256 appSecret payload))
      = String.mk (algName.toList ++ '=' :: bytesToHex (hmacSha256 appSecret payload)) := by
    simp [String.ext_iff, String.data_append]
  rw [hconv]
  exact validateSignature_accepts payload appSecret algName.toList h

/-- Witness for claim C6: the header name `"md5"` (not `"sha256"`, and
separator-free) together with a concrete payload and secret satisfies the
hypothesis, and the theorem applies. -/
theorem validateSignature_ignores_algorithm_name_witness :
    '=' ∉ "md5".toList ∧
      validateSignature [104, 105] ("md5" ++ "=" ++
          String.mk (bytesToHex (hmacSha256 [107, 101, 121] [104, 105]))) [107, 101, 121]
        = Except.ok true :=
  ⟨by decide, validateSignature_ignores_algorithm_name [104, 105] [107, 101, 121] "md5"
    (by decide)⟩

/-- A supplied digest containing a non-hexadecimal character never matches
the computed digest's UTF-8 bytes. -/
theorem utf8_digest_ne_nonhex (ds : List Nat) (sigHash : List Char)
    (hc : ∃ c ∈ sigHash, isHexDigitChar c = false) :
    utf8Bytes (bytesToHex ds) ≠ utf8Bytes sigHash := by
  rcases hc with ⟨c, hcmem, hchex⟩
  rcases charUtf8_head c with ⟨b, hbmem, hbval⟩
  intro heq
  have hbs : b ∈ utf8Bytes sigHash := mem_utf8Bytes_of_mem sigHash c b hcmem hbmem
  rw [← heq] at hbs
  have hascii : ∀ x ∈ bytesToHex ds, x.toNat < 128 := by
    intro x hx
    rcases mem_bytesToHex_spec ds x hx with ⟨_, hr⟩ | ⟨_, hr⟩ <;> omega
  rw [utf8Bytes_ascii _ hascii] at hbs
  rcases List.mem_map.mp hbs with ⟨c', hc', hbc⟩
  have hr := mem_bytesToHex_spec ds c' hc'
  rcases hbval with rfl | hb
  · simp [isHexDigitChar] at hchex
    omega
  · omega

/-- Claim C5: `validateSignature` fails closed — it returns `false` (and
`.ok` means no exception was raised) — whenever the header is empty,
splitting on `'='` does not yield exactly two parts, the supplied digest's
byte length differs from the computed digest's, or the supplied digest
contains non-hexadecimal characters. -/
theorem validateSignature_fails_closed (payload appSecret : List Nat) (signature : String)
    (h : signature = "" ∨
         (jsSplit '=' signature.toList).length ≠ 2 ∨
         (utf8Bytes ((jsSplit '=' signature.toList).getD 1 [])).length ≠
           (utf8Bytes (bytesToHex (hmacSha256 appSecret payload))).length ∨
         ∃ c ∈ (jsSplit '=' signature.toList).getD 1 [], isHexDigitChar c = false) :
    validateSignature payload signature appSecret = Except.ok false := by
  by_cases hs : signature = ""
  · simp [validateSignature, hs]
  simp only [validateSignature, if_neg hs]
  rcases h with h1 | h2 | h3 | h4
  · exact absurd h1 hs
  · rw [if_pos h2]
  · by_cases hp : (jsSplit '=' signature.toList).length = 2
    · rw [if_neg (not_not_intro hp), if_pos (fun he => h3 he.symm)]
    · rw [if_pos hp]
  · by_cases hp : (jsSplit '=' signature.toList).length = 2
    · by_cases hl : (utf8Bytes (bytesToHex (hmacSha256 appSecret payload))).length =
          (utf8Bytes ((jsSplit '=' signature.toList).getD 1 [])).length
      · have hne := utf8_digest_ne_nonhex (hmacSha256 appSecret payload)
          ((jsSplit '=' signature.toList).getD 1 []) h4
        rw [if_neg (not_not_intro hp), if_neg (not_not_intro hl)]
        unfold timingSafeEqual
        rw [if_pos hl]
        exact congrArg Except.ok (beq_eq_false_iff_ne.mpr hne)
      · rw [if_neg (not_not_intro hp), if_pos hl]
    · rw [if_pos hp]

/-- Witness for claim C5: the empty header with a concrete payload and
secret satisfies the first disjunct, and the theorem applies. -/
theorem validateSignature_fails_closed_witness :
    validateSignature [104, 105] "" [107, 101, 121] = Except.ok false :=
  validateSignature_fails_closed [104, 105] [107, 101, 121] "" (Or.inl rfl)

/-- Claim C10: digest comparison is case-sensitive over the hexadecimal
text: whenever the correct digest contains at least one letter, the header
`"sha256="` followed by the uppercase hexadecimal rendering of the HMAC is
rejected, even though it decodes to the same bytes. -/
theorem validateSignature_rejects_uppercase (payload appSecret : List Nat)
    (h : ∃ c ∈ bytesToHex (hmacSha256 appSecret payload), 97 ≤ c.toNat) :
    validateSignature payload
      ("sha256=" ++ String.mk (bytesToHexUpper (hmacSha256 appSecret payload))) appSecret
      = Except.ok false := by
  have hasciiL : ∀ x ∈ bytesToHex (hmacSha256 appSecret payload), x.toNat < 128 := by
    intro x hx
    rcases mem_bytesToHex_spec _ x hx with ⟨_, hr⟩ | ⟨_, hr⟩ <;> omega
  have hasciiU : ∀ x ∈ bytesToHexUpper (hmacSha256 appSecret payload), x.toNat < 128 := by
    intro x hx
    rcases mem_bytesToHexUpper_spec _ x hx with ⟨_, hr⟩ | ⟨_, hr⟩ <;> omega
  have hlen : (utf8Bytes (bytesToHex (hmacSha256 appSecret payload))).length =
      (utf8Bytes (bytesToHexUpper (hmacSha256 appSecret payload))).length := by
    rw [utf8Bytes_ascii _ hasciiL, utf8Bytes_ascii _ hasciiU]
    simp [bytesToHex_length, bytesToHexUpper_length]
  have hneq : utf8Bytes (bytesToHex (hmacSha256 appSecret payload)) ≠
      utf8Bytes (bytesToHexUpper (hmacSha256 appSecret payload)) := by
    intro heq
    rw [utf8Bytes_ascii _ hasciiL, utf8Bytes_ascii _ hasciiU] at heq
    have hsame : bytesToHex (hmacSha256 appSecret payload)
        = bytesToHexUpper (hmacSha256 appSecret payload) :=
      List.map_injective_iff.mpr char_toNat_injective heq
    rcases h with ⟨c, hcmem, hc97⟩
    rw [hsame] at hcmem
    rcases mem_bytesToHexUpper_spec _ c hcmem with ⟨_, hr⟩ | ⟨_, hr⟩ <;> omega
  have hconv : "sha256=" ++ String.mk (bytesToHexUpper (hmacSha256 appSecret payload))
      = String.mk ("sha256".toList ++ '=' ::
          bytesToHexUpper (hmacSha256 appSecret payload)) := rfl
  rw [hconv]
  have hne : String.mk ("sha256".toList ++ '=' ::
      bytesToHexUpper (hmacSha256 appSecret payload)) ≠ "" := by
    simp [String.ext_iff]
  simp only [validateSignature, if_neg hne]
  have htl : (String.mk ("sha256".toList ++ '=' ::
      bytesToHexUpper (hmacSha256 appSecret payload))).toList
      = "sha256".toList ++ '=' :: bytesToHexUpper (hmacSha256 appSecret payload) := rfl
  rw [htl, jsSplit_two '=' _ _ (by decide)
    (sep_not_mem_bytesToHexUpper (hmacSha256 appSecret payload))]
  rw [if_neg (by simp)]
  rw [if_neg (not_not_intro (by simpa using hlen))]
  unfold timingSafeEqual
  rw [if_pos (by simpa using hlen)]
  exact congrArg Except.ok (beq_eq_false_iff_ne.mpr (by simpa using hneq))

set_option maxRecDepth 100000 in
/-- Witness for claim C10: the HMAC-SHA256 digest of the payload `"hi"`
under the secret `"key"` contains lowercase letters, and the theorem
applies. -/
theorem validateSignature_rejects_uppercase_witness :
    (∃ c ∈ bytesToHex (hmacSha256 [107, 101, 121] [104, 105]), 97 ≤ c.toNat) ∧
      validateSignature [104, 105]
        ("sha256=" ++ String.mk (bytesToHexUpper (hmacSha256 [107, 101, 121] [104, 105])))
        [107, 101, 121] = Except.ok false := by
  have hw : ∃ c ∈ bytesToHex (hmacSha256 [107, 101, 121] [104, 105]), 97 ≤ c.toNat := by
    decide
  exact ⟨hw, validateSignature_rejects_uppercase [104, 105] [107, 101, 121] hw⟩

/-! ## Lemmas: JavaScript value access -/

theorem getProp_obj (fields : List (String × JsValue)) (k : String) :
    getProp (JsValue.obj fields) k = Except.ok (objLookup fields k) := rfl

theorem getIndex_arr (elems : List JsValue) (i : Nat) :
    getIndex (JsValue.arr elems) i = Except.ok (elems.getD i JsValue.undefined) := rfl

theorem exceptBind_ok (a : JsValue) (f : JsValue → Except String JsValue) :
    (Except.ok a >>= f) = f a := rfl

/-- A value strictly equal to a non-empty string literal is truthy. -/
theorem strictEqStr_truthy (v : JsValue) (s : String) (h : strictEqStr v s = true)
    (hs : s ≠ "") : truthy v = true := by
  cases v <;> simp [strictEqStr] at h
  subst h
  simpa [truthy] using hs

/-- Claim C1 fails on the code: `getFirstMessage {entry: []}` and
`getFirstMessage {entry: [{changes: []}]}` throw a `TypeError` (an empty
array is truthy in JavaScript, so the guard proceeds to read a property of
`undefined`) instead of returning `null`; only the third documented input
`{entry: [{changes: [{value: {}}]}]}` returns `null`, and `getFirstStatus`
throws on `{entry: []}` the same way. -/
theorem getFirstMessage_throws_on_partial_envelopes :
    getFirstMessage (JsValue.obj [("entry", JsValue.arr [])]) = Except.error "TypeError" ∧
    getFirstMessage (JsValue.obj [("entry",
        JsValue.arr [JsValue.obj [("changes", JsValue.arr [])]])])
      = Except.error "TypeError" ∧
    getFirstMessage (JsValue.obj [("entry",
        JsValue.arr [JsValue.obj [("changes",
          JsValue.arr [JsValue.obj [("value", JsValue.obj [])]])]])])
      = Except.ok JsValue.null ∧
    getFirstStatus (JsValue.obj [("entry", JsValue.arr [])]) = Except.error "TypeError" :=
  ⟨rfl, rfl, rfl, rfl⟩

/-- Counterexample to claim C4 as stated: with `hub.mode = "subscribe"`,
`hub.verify_token = ""` and `expectedToken = ""`, the claim's condition
holds (mode equals `"subscribe"`, token equals `expectedToken`), yet
`verifyWebhook` returns `null` rather than the challenge `"C123"`: the
source's truthiness guard `if (mode && token)` rejects the empty token. -/
theorem verifyWebhook_empty_token_counterexample :
    strictEqStr (objLookup [("hub.mode", JsValue.str "subscribe"),
        ("hub.verify_token", JsValue.str ""), ("hub.challenge", JsValue.str "C123")]
        "hub.mode") "subscribe" = true ∧
    strictEqStr (objLookup [("hub.mode", JsValue.str "subscribe"),
        ("hub.verify_token", JsValue.str ""), ("hub.challenge", JsValue.str "C123")]
        "hub.verify_token") "" = true ∧
    verifyWebhook (JsValue.obj [("hub.mode", JsValue.str "subscribe"),
        ("hub.verify_token", JsValue.str ""), ("hub.challenge", JsValue.str "C123")]) ""
      = Except.ok JsValue.null ∧
    Except.ok JsValue.null ≠ (Except.ok (JsValue.str "C123") : Except String JsValue) := by
  refine ⟨rfl, rfl, rfl, ?_⟩
  intro hcontra
  injection hcontra with h1
  exact JsValue.noConfusion h1

/-- Claim C4 (amended): for every query object and token, `verifyWebhook`
returns the challenge field verbatim exactly when the mode field strictly
equals `"subscribe"`, the token field strictly equals `expectedToken`, and
the token is truthy (non-empty); in every other case — including a correct
match against an empty `expectedToken` — it returns `null`. -/
theorem verifyWebhook_characterization (fields : List (String × JsValue))
    (verifyToken : String) :
    verifyWebhook (JsValue.obj fields) verifyToken =
      Except.ok
        (if strictEqStr (objLookup fields "hub.mode") "subscribe" &&
            strictEqStr (objLookup fields "hub.verify_token") verifyToken &&
            truthy (objLookup fields "hub.verify_token") then
          objLookup fields "hub.challenge"
        else JsValue.null) := by
  have heval : verifyWebhook (JsValue.obj fields) verifyToken =
      (if truthy (objLookup fields "hub.mode") &&
          truthy (objLookup fields "hub.verify_token") then
        if strictEqStr (objLookup fields "hub.mode") "subscribe" &&
            strictEqStr (objLookup fields "hub.verify_token") verifyToken then
          Except.ok (objLookup fields "hub.challenge")
        else Except.ok JsValue.null
      else Except.ok JsValue.null) := rfl
  rw [heval]
  cases hmode : strictEqStr (objLookup fields "hub.mode") "subscribe" with
  | false => simp [hmode]
  | true =>
    have hmt := strictEqStr_truthy _ _ hmode (by decide)
    cases htok : strictEqStr (objLookup fields "hub.verify_token") verifyToken with
    | false => simp [hmode, htok]
    | true =>
      cases htt : truthy (objLookup fields "hub.verify_token") with
      | false => simp [hmode, htok, htt, hmt]
      | true => simp [hmode, htok, htt, hmt]

/-- Claim C8: when the first entry's first change's value has a non-empty
messages sequence whose first element is a message record, `getFirstMessage`
returns exactly that first record, ignoring all later messages, changes and
entries. -/
theorem getFirstMessage_returns_first (pf ef cf vf mf : List (String × JsValue))
    (es cs ms : List JsValue)
    (he : objLookup pf "entry" = JsValue.arr (JsValue.obj ef :: es))
    (hc : objLookup ef "changes" = JsValue.arr (JsValue.obj cf :: cs))
    (hv : objLookup cf "value" = JsValue.obj vf)
    (hm : objLookup vf "messages" = JsValue.arr (JsValue.obj mf :: ms)) :
    getFirstMessage (JsValue.obj pf) = Except.ok (JsValue.obj mf) := by
  simp [getFirstMessage, getProp_obj, getIndex_arr, exceptBind_ok, he, hc, hv, hm, truthy,
    pure, Except.pure]

/-- Witness for claim C8: the spec's example envelope with
`messages = [{id: "m1", type: "text", text: {body: "hi"}}, {id: "m2"}]`
yields the `m1` record. -/
theorem getFirstMessage_returns_first_witness :
    getFirstMessage (JsValue.obj [("entry", JsValue.arr [JsValue.obj [("changes",
        JsValue.arr [JsValue.obj [("value", JsValue.obj [("messages", JsValue.arr
          [JsValue.obj [("id", JsValue.str "m1"), ("type", JsValue.str "text"),
             ("text", JsValue.obj [("body", JsValue.str "hi")])],
           JsValue.obj [("id", JsValue.str "m2")]])])]])]])])
      = Except.ok (JsValue.obj [("id", JsValue.str "m1"), ("type", JsValue.str "text"),
          ("text", JsValue.obj [("body", JsValue.str "hi")])]) := by
  apply getFirstMessage_returns_first <;> rfl

/-- Claim C9: `getFirstStatus` returns `null` on an envelope whose value
carries only a messages sequence and no statuses field, and returns the
first status record when the value carries a non-empty statuses
sequence. -/
theorem getFirstStatus_cases (pf ef cf vf : List (String × JsValue))
    (es cs ml : List JsValue)
    (he : objLookup pf "entry" = JsValue.arr (JsValue.obj ef :: es))
    (hc : objLookup ef "changes" = JsValue.arr (JsValue.obj cf :: cs))
    (hv : objLookup cf "value" = JsValue.obj vf)
    (_hm : objLookup vf "messages" = JsValue.arr ml)
    (hns : objLookup vf "statuses" = JsValue.undefined)
    (pf2 ef2 cf2 vf2 sf : List (String × JsValue)) (es2 cs2 ss : List JsValue)
    (he2 : objLookup pf2 "entry" = JsValue.arr (JsValue.obj ef2 :: es2))
    (hc2 : objLookup ef2 "changes" = JsValue.arr (JsValue.obj cf2 :: cs2))
    (hv2 : objLookup cf2 "value" = JsValue.obj vf2)
    (hs2 : objLookup vf2 "statuses" = JsValue.arr (JsValue.obj sf :: ss)) :
    getFirstStatus (JsValue.obj pf) = Except.ok JsValue.null ∧
    getFirstStatus (JsValue.obj pf2) = Except.ok (JsValue.obj sf) := by
  constructor
  · simp [getFirstStatus, getProp_obj, getIndex_arr, exceptBind_ok, he, hc, hv, hns, truthy,
      pure, Except.pure]
  · simp [getFirstStatus, getProp_obj, getIndex_arr, exceptBind_ok, he2, hc2, hv2, hs2,
      truthy, pure, Except.pure]

/-- Witness for claim C9: a status-only envelope yields its status record,
and a messages-only envelope yields `null`. -/
theorem getFirstStatus_cases_witness :
    getFirstStatus (JsValue.obj [("entry", JsValue.arr [JsValue.obj [("changes",
        JsValue.arr [JsValue.obj [("value", JsValue.obj [("messages", JsValue.arr
          [JsValue.obj [("id", JsValue.str "m1")]])])]])]])])
      = Except.ok JsValue.null ∧
    getFirstStatus (JsValue.obj [("entry", JsValue.arr [JsValue.obj [("changes",
        JsValue.arr [JsValue.obj [("value", JsValue.obj [("statuses", JsValue.arr
          [JsValue.obj [("id", JsValue.str "wamid.1"), ("status", JsValue.str "sent")]])])]])]])])
      = Except.ok (JsValue.obj [("id", JsValue.str "wamid.1"),
          ("status", JsValue.str "sent")]) := by
  apply getFirstStatus_cases <;> rfl

end WhatsAppWebhook
